import Mathlib

/-!
Verification of the Impeller Gaussian blur filter core
(impeller/entity/contents/filters/gaussian_blur_filter_contents.cc).

The C++ scalar type is embedded as the real numbers; machine integers are
embedded as signed integers with C truncating division (Int.tdiv) where the
source divides ints.  The geometry library, the Sigma to Radius conversion,
the kernel-size cap and the near-zero epsilon live in headers that are not
part of this source tree; definitions for those are marked
"Modelled from the spec" and follow the specification text.
-/

namespace Impeller

open scoped Classical

noncomputable section

/-- Two dimensional vector of scalars (the impeller Point / Vector2). -/
structure Vector2 where
  x : ℝ
  y : ℝ

/-- Integer size of a texture or render target (the impeller ISize). -/
structure ISize where
  width : ℤ
  height : ℤ
  deriving DecidableEq

def Vector2.add (a b : Vector2) : Vector2 := ⟨a.x + b.x, a.y + b.y⟩

/-- Scalar multiplication of a vector, as the source writes uv_offset * x. -/
def Vector2.scale (v : Vector2) (s : ℝ) : Vector2 := ⟨v.x * s, v.y * s⟩

/-- Componentwise division of a vector by a scalar. -/
def Vector2.divScalar (v : Vector2) (s : ℝ) : Vector2 := ⟨v.x / s, v.y / s⟩

/-- Componentwise absolute value (Vector2::Abs in the geometry library). -/
def Vector2.Abs (v : Vector2) : Vector2 := ⟨|v.x|, |v.y|⟩

/-- Euclidean length of a vector (Vector2::GetLength). -/
def Vector2.GetLength (v : Vector2) : ℝ := Real.sqrt (v.x * v.x + v.y * v.y)

/-- Modelled from the spec: the affine Matrix of the geometry library
(impeller/geometry/matrix.h is not under src/), restricted to the
two-dimensional linear basis plus translation that the blur filter uses.
The spec describes the uses as transforming unit basis vectors, composing
with scale matrices and taking an absolute value per axis. -/
structure Matrix where
  m00 : ℝ
  m01 : ℝ
  m10 : ℝ
  m11 : ℝ
  tx : ℝ
  ty : ℝ

def Matrix.identity : Matrix := ⟨1, 0, 0, 1, 0, 0⟩

/-- Matrix::Basis keeps the linear part and zeroes the translation. -/
def Matrix.Basis (m : Matrix) : Matrix := ⟨m.m00, m.m01, m.m10, m.m11, 0, 0⟩

/-- Composition of affine transforms; a.mul b applies b first, then a,
matching a * b in the source. -/
def Matrix.mul (a b : Matrix) : Matrix :=
  ⟨a.m00 * b.m00 + a.m01 * b.m10,
   a.m00 * b.m01 + a.m01 * b.m11,
   a.m10 * b.m00 + a.m11 * b.m10,
   a.m10 * b.m01 + a.m11 * b.m11,
   a.m00 * b.tx + a.m01 * b.ty + a.tx,
   a.m10 * b.tx + a.m11 * b.ty + a.ty⟩

/-- Application of an affine transform to a point (matrix * Vector2). -/
def Matrix.applyVector2 (m : Matrix) (v : Vector2) : Vector2 :=
  ⟨m.m00 * v.x + m.m01 * v.y + m.tx, m.m10 * v.x + m.m11 * v.y + m.ty⟩

/-- Matrix::MakeScale for a per-axis scale vector. -/
def Matrix.MakeScale (s : Vector2) : Matrix := ⟨s.x, 0, 0, s.y, 0, 0⟩

/-- Matrix::MakeTranslation. -/
def Matrix.MakeTranslation (t : Vector2) : Matrix := ⟨1, 0, 0, 1, t.x, t.y⟩

/-- Modelled from the spec: axis aligned rectangle of the geometry library
(impeller/geometry/rect.h is not under src/), stored as left, top, right,
bottom. -/
structure Rect where
  left : ℝ
  top : ℝ
  right : ℝ
  bottom : ℝ

def Rect.MakeSize (size : ISize) : Rect :=
  ⟨0, 0, (size.width : ℝ), (size.height : ℝ)⟩

/-- Rect::Expand grows the rectangle by the given amount on every side. -/
def Rect.Expand (r : Rect) (p : Vector2) : Rect :=
  ⟨r.left - p.x, r.top - p.y, r.right + p.x, r.bottom + p.y⟩

def Rect.GetSize (r : Rect) : Vector2 :=
  ⟨r.right - r.left, r.bottom - r.top⟩

/-- Per-component std::clamp, as used by the Clamp helper in the source. -/
def clampScalar (v lo hi : ℝ) : ℝ :=
  if v < lo then lo else if hi < v then hi else v

/-- Clamp from the source (gaussian_blur_filter_contents.cc line 72). -/
def Clamp (vec2 : Vector2) (lo hi : ℝ) : Vector2 :=
  ⟨clampScalar vec2.x lo hi, clampScalar vec2.y lo hi⟩

/-- ExtractScale from the source: transform the unit basis vectors and take
their lengths (line 77). -/
def ExtractScale (matrix : Matrix) : Vector2 :=
  let entity_scale_x := matrix.applyVector2 ⟨1, 0⟩
  let entity_scale_y := matrix.applyVector2 ⟨0, 1⟩
  ⟨entity_scale_x.GetLength, entity_scale_y.GetLength⟩

/-- The hard sigma cap from the source (line 26). -/
def kMaxSigma : ℝ := 500.0

/-- GaussianBlurFilterContents::ScaleSigma from the source (line 711):
clamp the input to kMaxSigma, then apply the fitted quadratic correction. -/
def ScaleSigma (sigma : ℝ) : ℝ :=
  let clamped := min sigma kMaxSigma
  let a : ℝ := 3.4e-06
  let b : ℝ := -3.4e-3
  let c : ℝ := 1
  let scalar := c + b * clamped + a * clamped * clamped
  clamped * scalar

/-- Modelled from the spec: the sigma to radius conversion of the geometry
library (impeller/geometry/sigma.h, which CalculateBlurRadius delegates to,
is not under src/).  Per the spec it is the smallest radius whose kernel
captures the effective Gaussian support, is zero for tiny sigma and is
monotonically non-decreasing in sigma. -/
def CalculateBlurRadius (sigma : ℝ) : ℝ :=
  if 0.5 < sigma then (sigma - 0.5) * 1.73205080757 else 0

/-- ScaleBlurRadius from the source (line 361): round radius * scalar to an
int. -/
def ScaleBlurRadius (radius scalar : ℝ) : ℤ := round (radius * scalar)

/-- GaussianBlurFilterContents::CalculateScale from the source (line 481). -/
def CalculateScale (sigma : ℝ) : ℝ :=
  if sigma ≤ 4 then 1.0
  else
    let raw_result := 4.0 / sigma
    let exponent : ℤ := round (Real.logb 2 raw_result)
    let exponent2 : ℤ := max (-4) exponent
    let rounded : ℝ := (2 : ℝ) ^ exponent2
    if rounded < 0.125 then
      let rounded_plus : ℝ := (2 : ℝ) ^ (exponent2 + 1)
      let blur_radius := CalculateBlurRadius sigma
      let kernel_size_plus : ℤ := ScaleBlurRadius blur_radius rounded_plus * 2 + 1
      if kernel_size_plus ≤ 41 then rounded_plus else rounded
    else rounded

/-- The reference downsample-scale algorithm exactly as claim C2 words it:
1.0 when sigma is at most 4, otherwise two to the power e with e the rounded
base-two logarithm of 4/sigma floor-clamped at -4, except that when that
power is below one eighth the coarser step e+1 is chosen if and only if the
kernel width at the coarser step is at most 41. -/
def CalculateScaleSpec (sigma : ℝ) : ℝ :=
  if sigma ≤ 4 then 1
  else
    let e : ℤ := max (-4) (round (Real.logb 2 (4.0 / sigma)))
    if (2 : ℝ) ^ e < 1 / 8 ∧
        2 * round (CalculateBlurRadius sigma * (2 : ℝ) ^ (e + 1)) + 1 ≤ 41 then
      (2 : ℝ) ^ (e + 1)
    else (2 : ℝ) ^ e

/-- BlurParameters from the header, as consumed by GenerateBlurInfo. -/
structure BlurParameters where
  blur_uv_offset : Vector2
  blur_sigma : ℝ
  blur_radius : ℤ
  step_size : ℤ

/-- One kernel sample: a texture-space offset and a weight. -/
structure KernelSample where
  uv_offset : Vector2
  coefficient : ℝ

instance : Inhabited KernelSample := ⟨⟨⟨0, 0⟩, 0⟩⟩

/-- A discrete kernel: the sample count the shader will read and the samples
themselves (the fixed C array is embedded as the list of its first
sample_count entries; the remaining array entries are never read). -/
structure KernelSamples where
  sample_count : ℤ
  samples : List KernelSample

/-- Modelled from the spec: the fixed kernel capacity
(KernelSamples::kMaxKernelSize, declared in the header which is not under
src/).  The spec gives the hard maximum as 31. -/
def kMaxKernelSize : ℤ := 31

/-- The discrete Gaussian probability density with mean zero and the given
standard deviation, evaluated at the integer offset x; the coefficient
formula inside the loop of GenerateBlurInfo (line 751). -/
def gaussianCoefficient (blur_sigma : ℝ) (x : ℤ) : ℝ :=
  Real.exp (-0.5 * ((x : ℝ) * (x : ℝ)) / (blur_sigma * blur_sigma)) /
    (Real.sqrt (2 * Real.pi) * blur_sigma)

/-- The sample count computed by GenerateBlurInfo (lines 723 to 744):
2 * radius / step + 1 with C integer division, minus two when the radius is
at least 3, then clamped to the capacity. -/
def blurSampleCount (parameters : BlurParameters) : ℤ :=
  let base := Int.tdiv (2 * parameters.blur_radius) parameters.step_size + 1
  let chopped := if 3 ≤ parameters.blur_radius then base - 2 else base
  if kMaxKernelSize < chopped then kMaxKernelSize else chopped

/-- The x_offset of GenerateBlurInfo (lines 728 to 732): one exactly when
the radius is at least 3. -/
def blurXOffset (parameters : BlurParameters) : ℤ :=
  if 3 ≤ parameters.blur_radius then 1 else 0

/-- The integer offset sampled by loop iteration i of GenerateBlurInfo
(line 748). -/
def blurSampleX (parameters : BlurParameters) (i : ℕ) : ℤ :=
  blurXOffset parameters + (i : ℤ) * parameters.step_size - parameters.blur_radius

/-- The samples produced by the loop of GenerateBlurInfo before normalization
(lines 746 to 756). -/
def rawBlurSamples (parameters : BlurParameters) : List KernelSample :=
  (List.range (blurSampleCount parameters).toNat).map fun i =>
    ⟨parameters.blur_uv_offset.scale ((blurSampleX parameters i : ℤ) : ℝ),
     gaussianCoefficient parameters.blur_sigma (blurSampleX parameters i)⟩

/-- GenerateBlurInfo from the source (line 721): generate the raw Gaussian
samples, then divide every coefficient by their total. -/
def GenerateBlurInfo (parameters : BlurParameters) : KernelSamples :=
  let raw := rawBlurSamples parameters
  let tally := (raw.map KernelSample.coefficient).sum
  ⟨blurSampleCount parameters,
   raw.map fun s => ⟨s.uv_offset, s.coefficient / tally⟩⟩

/-- The merged sample built in the else branch of LerpHackKernelSamples (lines 779
to 788): offsets averaged with the coefficients as weights, coefficients
summed. -/
def mergeKernelSamples (left right : KernelSample) : KernelSample :=
  ⟨((left.uv_offset.scale left.coefficient).add
      (right.uv_offset.scale right.coefficient)).divScalar
      (left.coefficient + right.coefficient),
   left.coefficient + right.coefficient⟩

/-- The loop of LerpHackKernelSamples (lines 775 to 791): i is the output
index, j the input cursor; the middle output copies one input sample and
advances j by one, every other output merges inputs j and j+1 and advances
j by two. -/
def lerpHackGo (s : ℕ → KernelSample) (middle m i j : ℕ) : List KernelSample :=
  if _h : i < m then
    if i = middle then
      s j :: lerpHackGo s middle m (i + 1) (j + 1)
    else
      mergeKernelSamples (s j) (s (j + 1)) :: lerpHackGo s middle m (i + 1) (j + 2)
  else []
termination_by m - i
decreasing_by all_goals omega

/-- LerpHackKernelSamples from the source (line 768). -/
def LerpHackKernelSamples (parameters : KernelSamples) : KernelSamples :=
  let sample_count : ℤ := Int.tdiv (parameters.sample_count - 1) 2 + 1
  let middle : ℤ := Int.tdiv sample_count 2
  ⟨sample_count,
   lerpHackGo (fun j => parameters.samples.getD j default)
     middle.toNat sample_count.toNat 0 0⟩

/-- Sum of the coefficients of a kernel. -/
def coefficientSum (k : KernelSamples) : ℝ :=
  (k.samples.map KernelSample.coefficient).sum

/-- A GPU texture: an identity (standing for the shared_ptr object
identity, which the source compares) and its pixel size. -/
structure TextureM where
  id : ℕ
  size : ISize
  deriving DecidableEq

/-- Snapshot of the filter input (the fields of impeller Snapshot the blur
filter reads; the sampler configuration carries no claim-relevant data). -/
structure SnapshotM where
  texture : TextureM
  transform : Matrix
  opacity : ℝ

/-- A render target; the source only ever reads its texture. -/
structure RenderTargetM where
  texture : TextureM
  deriving DecidableEq

/-- Modelled from the spec: the contents held by an entity; either nothing,
a snapshot texture, or anonymous contents built from closures (the clip and
solid style compositors, whose internals live outside this source file). -/
inductive ContentsM where
  | empty
  | fromSnapshot (snapshot : SnapshotM)
  | anonymous

/-- Modelled from the spec: the drawing entity; the blur filter reads and
writes its transform, blend mode and contents. -/
structure EntityM where
  transform : Matrix
  blend_mode : ℕ
  contents : ContentsM

/-- Modelled from the spec: Entity::FromSnapshot (entity.cc is not under
src/) wraps a snapshot as an entity positioned by the snapshot transform. -/
def EntityM.FromSnapshot (snapshot : SnapshotM) (blend_mode : ℕ) : EntityM :=
  ⟨snapshot.transform, blend_mode, .fromSnapshot snapshot⟩

/-- The four mask styles. -/
inductive BlurStyle where
  | kNormal
  | kInner
  | kOuter
  | kSolid

/-- ApplyBlurStyle from the source (line 404): the normal style returns the
blur entity unchanged; the clipped and solid styles return a fresh entity
holding anonymous contents (their closure internals draw through the clip
and geometry collaborators, which are outside this source file and modelled
from the spec as anonymous contents). -/
def ApplyBlurStyle (blur_style : BlurStyle) (blur_entity : EntityM) : EntityM :=
  match blur_style with
  | .kNormal => blur_entity
  | .kInner => ⟨Matrix.identity, 0, .anonymous⟩
  | .kOuter => ⟨Matrix.identity, 0, .anonymous⟩
  | .kSolid => ⟨Matrix.identity, 0, .anonymous⟩

/-- A filter input, reduced to the one collaborator query the coverage path
uses: GetCoverage for an entity. -/
structure FilterInputM where
  getCoverage : EntityM → Option Rect

/-- BlurInfo from the source (line 83). -/
structure BlurInfo where
  source_space_scalar : Vector2
  scaled_sigma : Vector2
  blur_radius : Vector2
  padding : Vector2
  local_padding : Vector2

/-- CalculateBlurInfo from the source (line 98). -/
def CalculateBlurInfo (entity : EntityM) (effect_transform : Matrix)
    (sigma : Vector2) : BlurInfo :=
  let source_space_scalar := ExtractScale entity.transform.Basis
  let scaled_sigma := Clamp
      (((effect_transform.Basis.mul (Matrix.MakeScale source_space_scalar)).applyVector2
          ⟨ScaleSigma sigma.x, ScaleSigma sigma.y⟩).Abs) 0 kMaxSigma
  let blur_radius : Vector2 :=
    ⟨CalculateBlurRadius scaled_sigma.x, CalculateBlurRadius scaled_sigma.y⟩
  let padding : Vector2 := ⟨((⌈blur_radius.x⌉ : ℤ) : ℝ), ((⌈blur_radius.y⌉ : ℤ) : ℝ)⟩
  let local_padding := ((Matrix.MakeScale source_space_scalar).applyVector2 padding).Abs
  ⟨source_space_scalar, scaled_sigma, blur_radius, padding, local_padding⟩

/-- GetFilterCoverage from the source (line 519); sigma is the stored
sigma member of the filter. -/
def GetFilterCoverage (inputs : List FilterInputM) (entity : EntityM)
    (effect_transform : Matrix) (sigma : Vector2) : Option Rect :=
  match inputs with
  | [] => none
  | input :: _ =>
    match input.getCoverage entity with
    | none => none
    | some input_coverage =>
      let blur_info := CalculateBlurInfo entity effect_transform sigma
      some (input_coverage.Expand ⟨blur_info.local_padding.x, blur_info.local_padding.y⟩)

/-- DownsamplePassArgs from the source (line 159).  The UV quad needs the
local transform of the filter input, an external collaborator, and no claim
concerns it, so it is omitted here. -/
structure DownsamplePassArgs where
  subpass_size : ISize
  effective_scalar : Vector2

/-- CalculateDownsamplePassArgs from the source (line 172). -/
def CalculateDownsamplePassArgs (scaled_sigma padding : Vector2)
    (input_snapshot_size : ISize) : DownsamplePassArgs :=
  let desired_scalar :=
    min (CalculateScale scaled_sigma.x) (CalculateScale scaled_sigma.y)
  let downsample_scalar : Vector2 := ⟨desired_scalar, desired_scalar⟩
  let source_rect := Rect.MakeSize input_snapshot_size
  let source_rect_padded := source_rect.Expand padding
  let downsampled_size : Vector2 :=
    ⟨source_rect_padded.GetSize.x * downsample_scalar.x,
     source_rect_padded.GetSize.y * downsample_scalar.y⟩
  let subpass_size : ISize := ⟨round downsampled_size.x, round downsampled_size.y⟩
  let effective_scalar : Vector2 :=
    ⟨(subpass_size.width : ℝ) / source_rect_padded.GetSize.x,
     (subpass_size.height : ℝ) / source_rect_padded.GetSize.y⟩
  ⟨subpass_size, effective_scalar⟩

/-- Modelled from the spec: the near-zero sigma epsilon kEhCloseEnough
(declared in a header not under src/); the spec gives it as 1e-2. -/
def kEhCloseEnough : ℝ := 0.01

/-- The outcomes the GPU and content collaborators report back to one
RenderFilter invocation: the snapshot the input produces, whether a command
buffer can be created, whether each recorded draw succeeds, and whether
submission succeeds. -/
structure RenderEnv where
  input_snapshot : Option SnapshotM
  command_buffer_ok : Bool
  downsample_draw_ok : Bool
  blur_pass1_draw_ok : Bool
  blur_pass2_draw_ok : Bool
  submit_ok : Bool

/-- Observable resource effects of one RenderFilter invocation: command
buffers created, render targets allocated, the uv offsets of the recorded
blur draws in order, the three pass outputs and the destination argument
handed to the second blur pass. -/
structure Trace where
  next_texture_id : ℕ
  command_buffers : ℕ
  targets_allocated : ℕ
  blur_draws : List Vector2
  pass1 : Option RenderTargetM
  pass2 : Option RenderTargetM
  pass3 : Option RenderTargetM
  pass3_destination : Option (Option RenderTargetM)

def Trace.empty : Trace := ⟨0, 0, 0, [], none, none, none, none⟩

/-- Allocate a fresh render target of the given size (RenderTarget creation
inside ContentContext::MakeSubpass). -/
def Trace.alloc (tr : Trace) (size : ISize) : RenderTargetM × Trace :=
  (⟨⟨tr.next_texture_id, size⟩⟩,
   { tr with
      next_texture_id := tr.next_texture_id + 1,
      targets_allocated := tr.targets_allocated + 1 })

/-- Record one blur draw with the uv offset its BlurParameters carry. -/
def Trace.recordBlurDraw (tr : Trace) (uv_offset : Vector2) : Trace :=
  { tr with blur_draws := tr.blur_draws ++ [uv_offset] }

/-- MakeDownsampleSubpass from the source (line 212): allocate the subpass
target and draw the scaled input into it; success of the draw is reported by
the device collaborator. -/
def MakeDownsampleSubpass (draw_ok : Bool) (subpass_size : ISize)
    (tr : Trace) : Option RenderTargetM × Trace :=
  let alloc := tr.alloc subpass_size
  (if draw_ok then some alloc.1 else none, alloc.2)

/-- MakeBlurSubpass from the source (line 265): early-out returning the
input pass when the blur sigma is below the near-zero epsilon; otherwise
draw the 1D blur either into the given destination target or into a freshly
allocated target sized like the input texture. -/
def MakeBlurSubpass (draw_ok : Bool) (input_pass : RenderTargetM)
    (blur_info : BlurParameters) (destination_target : Option RenderTargetM)
    (tr : Trace) : Option RenderTargetM × Trace :=
  if blur_info.blur_sigma < kEhCloseEnough then (some input_pass, tr)
  else
    match destination_target with
    | some dest =>
        (if draw_ok then some dest else none,
         tr.recordBlurDraw blur_info.blur_uv_offset)
    | none =>
        let alloc := tr.alloc input_pass.texture.size
        (if draw_ok then some alloc.1 else none,
         (alloc.2).recordBlurDraw blur_info.blur_uv_offset)

/-- GaussianBlurFilterContents::RenderFilter from the source (line 544),
with the collaborator outcomes supplied by a RenderEnv and the resource
effects reported in a Trace.  The coverage-hint arithmetic only feeds the
snapshot request and the blur UV quad, neither of which any claim concerns,
so it is not modelled; the snapshot itself is the answer of the collaborator. -/
def RenderFilter (inputs : List FilterInputM) (env : RenderEnv)
    (entity : EntityM) (effect_transform : Matrix) (sigma : Vector2)
    (mask_blur_style : BlurStyle) : Option EntityM × Trace :=
  match inputs with
  | [] => (none, Trace.empty)
  | _ :: _ =>
    let blur_info := CalculateBlurInfo entity effect_transform sigma
    match env.input_snapshot with
    | none => (none, Trace.empty)
    | some input_snapshot =>
      if blur_info.scaled_sigma.x < kEhCloseEnough ∧
          blur_info.scaled_sigma.y < kEhCloseEnough then
        let result := EntityM.FromSnapshot input_snapshot entity.blend_mode
        (some { result with
                  transform := entity.transform.mul
                    ((Matrix.MakeScale ⟨1 / blur_info.source_space_scalar.x,
                        1 / blur_info.source_space_scalar.y⟩).mul
                      input_snapshot.transform) },
         Trace.empty)
      else
        if env.command_buffer_ok = false then (none, Trace.empty)
        else
          let tr0 : Trace := { Trace.empty with command_buffers := 1 }
          let downsample_pass_args := CalculateDownsamplePassArgs
              blur_info.scaled_sigma blur_info.padding input_snapshot.texture.size
          let r1 := MakeDownsampleSubpass env.downsample_draw_ok
              downsample_pass_args.subpass_size tr0
          let tr1 : Trace := { r1.2 with pass1 := r1.1 }
          match r1.1 with
          | none => (none, tr1)
          | some pass1_out =>
            let pass1_pixel_size : Vector2 :=
              ⟨1 / (pass1_out.texture.size.width : ℝ),
               1 / (pass1_out.texture.size.height : ℝ)⟩
            let r2 := MakeBlurSubpass env.blur_pass1_draw_ok pass1_out
                ⟨⟨0, pass1_pixel_size.y⟩,
                 blur_info.scaled_sigma.y * downsample_pass_args.effective_scalar.y,
                 ScaleBlurRadius blur_info.blur_radius.y
                   downsample_pass_args.effective_scalar.y,
                 1⟩
                none tr1
            let tr2 : Trace := { r2.2 with pass2 := r2.1 }
            match r2.1 with
            | none => (none, tr2)
            | some pass2_out =>
              let pass3_destination : Option RenderTargetM :=
                if pass2_out.texture ≠ pass1_out.texture then some pass1_out
                else none
              let tr2b : Trace := { tr2 with pass3_destination := some pass3_destination }
              let r3 := MakeBlurSubpass env.blur_pass2_draw_ok pass2_out
                  ⟨⟨pass1_pixel_size.x, 0⟩,
                   blur_info.scaled_sigma.x * downsample_pass_args.effective_scalar.x,
                   ScaleBlurRadius blur_info.blur_radius.x
                     downsample_pass_args.effective_scalar.x,
                   1⟩
                  pass3_destination tr2b
              let tr3 : Trace := { r3.2 with pass3 := r3.1 }
              match r3.1 with
              | none => (none, tr3)
              | some pass3_out =>
                if env.submit_ok = false then (none, tr3)
                else
                  let blur_output_entity := EntityM.FromSnapshot
                      ⟨pass3_out.texture,
                       entity.transform.mul
                         ((Matrix.MakeScale ⟨1 / blur_info.source_space_scalar.x,
                             1 / blur_info.source_space_scalar.y⟩).mul
                           (input_snapshot.transform.mul
                             ((Matrix.MakeTranslation ⟨-blur_info.padding.x,
                                 -blur_info.padding.y⟩).mul
                               (Matrix.MakeScale
                                 ⟨1 / downsample_pass_args.effective_scalar.x,
                                  1 / downsample_pass_args.effective_scalar.y⟩)))),
                       input_snapshot.opacity⟩
                      entity.blend_mode
                  (some (ApplyBlurStyle mask_blur_style blur_output_entity), tr3)

/-- The early pass-through condition of RenderFilter (line 582): both
scaled sigmas below the near-zero epsilon. -/
def renderEarlyOut (entity : EntityM) (effect_transform : Matrix)
    (sigma : Vector2) : Prop :=
  (CalculateBlurInfo entity effect_transform sigma).scaled_sigma.x < kEhCloseEnough ∧
  (CalculateBlurInfo entity effect_transform sigma).scaled_sigma.y < kEhCloseEnough

/-- The downsample pass arguments a RenderFilter invocation derives for a
given snapshot. -/
def downsampleArgsOf (entity : EntityM) (effect_transform : Matrix)
    (sigma : Vector2) (snapshot : SnapshotM) : DownsamplePassArgs :=
  CalculateDownsamplePassArgs
    (CalculateBlurInfo entity effect_transform sigma).scaled_sigma
    (CalculateBlurInfo entity effect_transform sigma).padding
    snapshot.texture.size

/-- The blur sigma handed to the first (vertical) blur pass. -/
def blurSigmaY (entity : EntityM) (effect_transform : Matrix) (sigma : Vector2)
    (snapshot : SnapshotM) : ℝ :=
  (CalculateBlurInfo entity effect_transform sigma).scaled_sigma.y *
    (downsampleArgsOf entity effect_transform sigma snapshot).effective_scalar.y

/-- The blur sigma handed to the second (horizontal) blur pass. -/
def blurSigmaX (entity : EntityM) (effect_transform : Matrix) (sigma : Vector2)
    (snapshot : SnapshotM) : ℝ :=
  (CalculateBlurInfo entity effect_transform sigma).scaled_sigma.x *
    (downsampleArgsOf entity effect_transform sigma snapshot).effective_scalar.x

/-- Closed form for output sample i of the lerp loop: the middle output
copies input 2*middle; an output left of the middle merges inputs 2i and
2i+1; an output right of the middle merges inputs 2i-1 and 2i. -/
def lerpOutSample (s : ℕ → KernelSample) (middle i : ℕ) : KernelSample :=
  if i = middle then s (2 * middle)
  else if i < middle then mergeKernelSamples (s (2 * i)) (s (2 * i + 1))
  else mergeKernelSamples (s (2 * i - 1)) (s (2 * i))

/-- A concrete 4 by 4 input texture for running RenderFilter. -/
def cTexture : TextureM := ⟨100, ⟨4, 4⟩⟩

/-- A concrete input snapshot with identity transform and full opacity. -/
def cSnapshot : SnapshotM := ⟨cTexture, Matrix.identity, 1⟩

/-- A collaborator environment where every device operation succeeds. -/
def cEnv : RenderEnv := ⟨some cSnapshot, true, true, true, true, true⟩

/-- A collaborator environment where every device operation fails. -/
def cEnvFail : RenderEnv := ⟨some cSnapshot, false, false, false, false, false⟩

/-- A concrete entity with identity transform. -/
def cEntity : EntityM := ⟨Matrix.identity, 0, .empty⟩

/-- A concrete filter input whose coverage is the 4 by 4 unit rectangle. -/
def cInput : FilterInputM := ⟨fun _ => some ⟨0, 0, 4, 4⟩⟩

/-! Theorems for the claims. -/

lemma clampScalar_bounds (v : ℝ) : 0 ≤ clampScalar v 0 500 ∧ clampScalar v 0 500 ≤ 500 := by
  unfold clampScalar
  split_ifs with h1 h2 <;> constructor <;> linarith

lemma scaleSigma_min (s : ℝ) : ScaleSigma s = ScaleSigma (min s 500) := by
  simp only [ScaleSigma, kMaxSigma]
  norm_num [min_assoc]

/-- C5: for every entity transform, effect transform and requested sigma the
derived scaled sigma lies in the interval from 0 to 500 on each axis;
ScaleSigma clamps its argument to 500 before the quadratic correction, so a
requested sigma of 600 derives exactly the same blur parameters as 500. -/
theorem C5_scaled_sigma_clamped (entity : EntityM) (effect_transform : Matrix)
    (sigma : Vector2) :
    (0 ≤ (CalculateBlurInfo entity effect_transform sigma).scaled_sigma.x ∧
     (CalculateBlurInfo entity effect_transform sigma).scaled_sigma.x ≤ 500 ∧
     0 ≤ (CalculateBlurInfo entity effect_transform sigma).scaled_sigma.y ∧
     (CalculateBlurInfo entity effect_transform sigma).scaled_sigma.y ≤ 500) ∧
    (∀ s : ℝ, ScaleSigma s = ScaleSigma (min s 500)) ∧
    ScaleSigma 600 = ScaleSigma 500 ∧
    CalculateBlurInfo entity effect_transform ⟨600, 600⟩ =
      CalculateBlurInfo entity effect_transform ⟨500, 500⟩ := by
  have h600 : ScaleSigma 600 = ScaleSigma 500 := by
    rw [scaleSigma_min 600]
    norm_num
  refine ⟨?_, scaleSigma_min, h600, ?_⟩
  · have hx := clampScalar_bounds
      (((effect_transform.Basis.mul
          (Matrix.MakeScale (ExtractScale entity.transform.Basis))).applyVector2
            ⟨ScaleSigma sigma.x, ScaleSigma sigma.y⟩).Abs).x
    have hy := clampScalar_bounds
      (((effect_transform.Basis.mul
          (Matrix.MakeScale (ExtractScale entity.transform.Basis))).applyVector2
            ⟨ScaleSigma sigma.x, ScaleSigma sigma.y⟩).Abs).y
    simp only [CalculateBlurInfo, Clamp, kMaxSigma]
    norm_num
    exact ⟨hx.1, hx.2, hy.1, hy.2⟩
  · simp only [CalculateBlurInfo]
    rw [h600]

lemma round_nonpos {x : ℝ} (hx : x < 0) : round x ≤ 0 := by
  rw [round_eq]
  have h1 : ⌊x + 1 / 2⌋ < 1 := Int.floor_lt.mpr (by push_cast; linarith)
  omega

/-- C2: CalculateScale agrees with the reference algorithm of the claim
(CalculateScaleSpec), its result is one of 1, 1/2, 1/4, 1/8, 1/16, and it is
never below 1/16. -/
theorem C2_downsample_scale (sigma : ℝ) (h : 0 ≤ sigma) :
    CalculateScale sigma = CalculateScaleSpec sigma ∧
    (CalculateScale sigma = 1 ∨ CalculateScale sigma = 1 / 2 ∨
     CalculateScale sigma = 1 / 4 ∨ CalculateScale sigma = 1 / 8 ∨
     CalculateScale sigma = 1 / 16) ∧
    1 / 16 ≤ CalculateScale sigma := by
  by_cases h4 : sigma ≤ 4
  · refine ⟨?_, ?_, ?_⟩
    · simp [CalculateScale, CalculateScaleSpec, h4]
      norm_num
    · simp [CalculateScale, h4]
      norm_num
    · simp [CalculateScale, h4]
      norm_num
  · have hσ4 : (4 : ℝ) < sigma := lt_of_not_le h4
    have hσ0 : (0 : ℝ) < sigma := by linarith
    have he0 : max (-4 : ℤ) (round (Real.logb 2 (4.0 / sigma))) ≤ 0 := by
      have hraw0 : (0 : ℝ) < 4.0 / sigma := by positivity
      have hraw1 : (4.0 : ℝ) / sigma < 1 := (div_lt_one hσ0).mpr (by linarith)
      have hlog : Real.logb 2 (4.0 / sigma) < 0 :=
        Real.logb_neg (by norm_num) hraw0 hraw1
      have h2 := round_nonpos hlog
      omega
    have he4 : (-4 : ℤ) ≤ max (-4 : ℤ) (round (Real.logb 2 (4.0 / sigma))) :=
      le_max_left _ _
    have heq : CalculateScale sigma = CalculateScaleSpec sigma := by
      simp only [CalculateScale, CalculateScaleSpec, ScaleBlurRadius]
      rw [if_neg h4, if_neg h4]
      set e := max (-4 : ℤ) (round (Real.logb 2 (4.0 / sigma))) with he
      have hiff : ((2 : ℝ) ^ e < 0.125) ↔ ((2 : ℝ) ^ e < 1 / 8) := by norm_num
      have hiff2 : (round (CalculateBlurRadius sigma * (2 : ℝ) ^ (e + 1)) * 2 + 1 ≤ 41) ↔
          (2 * round (CalculateBlurRadius sigma * (2 : ℝ) ^ (e + 1)) + 1 ≤ 41) := by
        omega
      by_cases hc1 : (2 : ℝ) ^ e < 0.125
      · by_cases hc2 : round (CalculateBlurRadius sigma * (2 : ℝ) ^ (e + 1)) * 2 + 1 ≤ 41
        · rw [if_pos hc1, if_pos hc2, if_pos ⟨hiff.mp hc1, hiff2.mp hc2⟩]
        · rw [if_pos hc1, if_neg hc2, if_neg
            (fun hh : _ ∧ _ => hc2 (hiff2.mpr hh.2))]
      · rw [if_neg hc1, if_neg (fun hh : _ ∧ _ => hc1 (hiff.mpr hh.1))]
    have hmem : CalculateScale sigma = 1 ∨ CalculateScale sigma = 1 / 2 ∨
        CalculateScale sigma = 1 / 4 ∨ CalculateScale sigma = 1 / 8 ∨
        CalculateScale sigma = 1 / 16 := by
      simp only [CalculateScale]
      rw [if_neg h4]
      have hcases : max (-4 : ℤ) (round (Real.logb 2 (4.0 / sigma))) = -4 ∨
          max (-4 : ℤ) (round (Real.logb 2 (4.0 / sigma))) = -3 ∨
          max (-4 : ℤ) (round (Real.logb 2 (4.0 / sigma))) = -2 ∨
          max (-4 : ℤ) (round (Real.logb 2 (4.0 / sigma))) = -1 ∨
          max (-4 : ℤ) (round (Real.logb 2 (4.0 / sigma))) = 0 := by omega
      rcases hcases with he | he | he | he | he <;> rw [he] <;>
        split_ifs with hA hB <;> first
          | (norm_num; done)
          | norm_num at hA
    refine ⟨heq, hmem, ?_⟩
    rcases hmem with hm | hm | hm | hm | hm <;> rw [hm] <;> norm_num

/-- Witness for C2 at sigma 10. -/
theorem C2_downsample_scale_witness :
    CalculateScale 10 = CalculateScaleSpec 10 :=
  (C2_downsample_scale 10 (by norm_num)).1

lemma sum_map_div_coefficient (l : List KernelSample) (t : ℝ) :
    ((l.map fun s => KernelSample.mk s.uv_offset (s.coefficient / t)).map
        KernelSample.coefficient).sum = (l.map KernelSample.coefficient).sum / t := by
  induction l with
  | nil => simp
  | cons a l ih =>
    simp only [List.map_cons, List.sum_cons, ih, add_div]

lemma rawBlurSamples_length (p : BlurParameters) :
    (rawBlurSamples p).length = (blurSampleCount p).toNat := by
  simp [rawBlurSamples]

lemma gaussianCoefficient_pos (sigma : ℝ) (hσ : 0 < sigma) (x : ℤ) :
    0 < gaussianCoefficient sigma x := by
  unfold gaussianCoefficient
  have h1 : 0 < Real.exp (-0.5 * ((x : ℝ) * (x : ℝ)) / (sigma * sigma)) := Real.exp_pos _
  have h2 : 0 < Real.sqrt (2 * Real.pi) := Real.sqrt_pos.mpr (by positivity)
  positivity

lemma generateBlurInfo_sample_count (p : BlurParameters) :
    (GenerateBlurInfo p).sample_count = blurSampleCount p := rfl

lemma generateBlurInfo_samples_length (p : BlurParameters) :
    (GenerateBlurInfo p).samples.length = (blurSampleCount p).toNat := by
  simp [GenerateBlurInfo, rawBlurSamples]

lemma generateBlurInfo_sum_eq_one (p : BlurParameters) (hσ : 0 < p.blur_sigma)
    (hn : 1 ≤ blurSampleCount p) : coefficientSum (GenerateBlurInfo p) = 1 := by
  have hlen := rawBlurSamples_length p
  have hne : rawBlurSamples p ≠ [] := by
    intro h
    rw [h] at hlen
    simp at hlen
    omega
  have hpos : ∀ x ∈ (rawBlurSamples p).map KernelSample.coefficient, 0 < x := by
    intro x hx
    simp only [rawBlurSamples, List.map_map, List.mem_map, Function.comp] at hx
    obtain ⟨i, _, rfl⟩ := hx
    exact gaussianCoefficient_pos _ hσ _
  have htal : 0 < ((rawBlurSamples p).map KernelSample.coefficient).sum :=
    List.sum_pos _ hpos (by simpa using hne)
  simp only [coefficientSum, GenerateBlurInfo]
  rw [sum_map_div_coefficient]
  exact div_self htal.ne'

lemma blurSampleCount_step_one (p : BlurParameters) (hr : 0 ≤ p.blur_radius)
    (hs : p.step_size = 1) : ∃ t : ℤ, 0 ≤ t ∧ blurSampleCount p = 2 * t + 1 := by
  simp only [blurSampleCount, hs, Int.tdiv_one, kMaxKernelSize]
  split_ifs with h1 h2 h3
  · exact ⟨15, by omega, by omega⟩
  · exact ⟨p.blur_radius - 1, by omega, by omega⟩
  · exact ⟨15, by omega, by omega⟩
  · exact ⟨p.blur_radius, by omega, by omega⟩

lemma lerpHackGo_closed (s : ℕ → KernelSample) (middle m : ℕ) :
    ∀ (d i j : ℕ), m - i = d → i ≤ m →
      (i ≤ middle → j = 2 * i) → (middle < i → j = 2 * i - 1) →
      lerpHackGo s middle m i j =
        (List.range d).map fun k => lerpOutSample s middle (i + k) := by
  intro d
  induction d with
  | zero =>
    intro i j hd _ _ _
    have him : ¬ i < m := by omega
    rw [lerpHackGo, dif_neg him]
    simp
  | succ d ih =>
    intro i j hd hi hj1 hj2
    have him : i < m := by omega
    rw [lerpHackGo, dif_pos him, List.range_succ_eq_map, List.map_cons, List.map_map]
    have htail : ∀ jnext : ℕ,
        (i + 1 ≤ middle → jnext = 2 * (i + 1)) →
        (middle < i + 1 → jnext = 2 * (i + 1) - 1) →
        lerpHackGo s middle m (i + 1) jnext =
          (List.range d).map ((fun k => lerpOutSample s middle (i + k)) ∘ Nat.succ) := by
      intro jnext ha hb
      rw [ih (i + 1) jnext (by omega) (by omega) ha hb]
      apply List.map_congr_left
      intro k _
      simp only [Function.comp]
      congr 1
      omega
    by_cases hmid : i = middle
    · have hj : j = 2 * i := hj1 (by omega)
      rw [if_pos hmid]
      rw [htail (j + 1) (by omega) (by omega)]
      congr 1
      simp only [lerpOutSample, Nat.add_zero, if_pos hmid]
      congr 1
      omega
    · rw [if_neg hmid]
      rcases Nat.lt_or_ge i middle with hlt | hge
      · have hj : j = 2 * i := hj1 (by omega)
        subst hj
        rw [htail (2 * i + 2) (by omega) (by omega)]
        congr 1
        simp only [lerpOutSample, Nat.add_zero, if_neg hmid, if_pos hlt]
      · have hgt : middle < i := by omega
        have hj : j = 2 * i - 1 := hj2 hgt
        subst hj
        have h21 : 2 * i - 1 + 1 = 2 * i := by omega
        rw [htail (2 * i - 1 + 2) (by omega) (by omega)]
        congr 1
        simp only [lerpOutSample, Nat.add_zero, if_neg hmid,
          if_neg (by omega : ¬ i < middle), h21]

lemma lerpHackGo_closed_zero (s : ℕ → KernelSample) (middle m : ℕ) :
    lerpHackGo s middle m 0 0 =
      (List.range m).map fun k => lerpOutSample s middle k := by
  have h := lerpHackGo_closed s middle m m 0 0 (by omega) (by omega)
    (by omega) (by omega)
  simpa using h

lemma lerpHack_samples (k : KernelSamples) :
    (LerpHackKernelSamples k).samples =
      (List.range ((Int.tdiv (k.sample_count - 1) 2 + 1).toNat)).map
        fun i => lerpOutSample (fun j => k.samples.getD j default)
          ((Int.tdiv (Int.tdiv (k.sample_count - 1) 2 + 1) 2).toNat) i := by
  simp only [LerpHackKernelSamples]
  rw [lerpHackGo_closed_zero]

lemma lerpHackGo_coeff_sum (s : ℕ → KernelSample) (middle m : ℕ) (hmid : middle < m) :
    ∀ (d i j : ℕ), m - i = d → i ≤ m →
      (i ≤ middle → j = 2 * i) → (middle < i → j = 2 * i - 1) →
      ((lerpHackGo s middle m i j).map KernelSample.coefficient).sum =
        ∑ k ∈ Finset.Ico j (2 * m - 1), (s k).coefficient := by
  intro d
  induction d with
  | zero =>
    intro i j hd hi hj1 hj2
    have him : ¬ i < m := by omega
    have hieq : i = m := by omega
    have hj : j = 2 * m - 1 := by
      have := hj2 (by omega)
      omega
    rw [lerpHackGo, dif_neg him, hj]
    simp
  | succ d ih =>
    intro i j hd hi hj1 hj2
    have him : i < m := by omega
    rw [lerpHackGo, dif_pos him]
    by_cases hmid2 : i = middle
    · have hj : j = 2 * i := hj1 (by omega)
      have hjlt : j < 2 * m - 1 := by omega
      rw [if_pos hmid2, List.map_cons, List.sum_cons,
        ih (i + 1) (j + 1) (by omega) (by omega) (by omega) (by omega),
        Finset.sum_eq_sum_Ico_succ_bot hjlt]
    · have hj : j = 2 * i ∨ j = 2 * i - 1 := by
        rcases Nat.lt_or_ge i middle with hlt | hge
        · exact Or.inl (hj1 (by omega))
        · exact Or.inr (hj2 (by omega))
      have hjlt : j + 1 < 2 * m - 1 := by omega
      rw [if_neg hmid2, List.map_cons, List.sum_cons,
        ih (i + 1) (j + 2) (by omega) (by omega) (by omega) (by omega),
        Finset.sum_eq_sum_Ico_succ_bot (by omega : j < 2 * m - 1),
        Finset.sum_eq_sum_Ico_succ_bot hjlt]
      show (mergeKernelSamples (s j) (s (j + 1))).coefficient + _ = _
      rw [show (mergeKernelSamples (s j) (s (j + 1))).coefficient =
        (s j).coefficient + (s (j + 1)).coefficient from rfl]
      ring

lemma lerpHackGo_coeff_sum_zero (s : ℕ → KernelSample) (middle m : ℕ)
    (hmid : middle < m) :
    ((lerpHackGo s middle m 0 0).map KernelSample.coefficient).sum =
      ∑ k ∈ Finset.range (2 * m - 1), (s k).coefficient := by
  rw [lerpHackGo_coeff_sum s middle m hmid m 0 0 (by omega) (by omega)
    (by omega) (by omega)]
  rw [← Finset.range_eq_Ico]

lemma sum_range_getD (l : List KernelSample) :
    ∑ k ∈ Finset.range l.length, (l.getD k default).coefficient =
      (l.map KernelSample.coefficient).sum := by
  induction l with
  | nil => simp
  | cons a l ih =>
    rw [List.length_cons, Finset.sum_range_succ']
    simp only [List.getD_cons_succ, List.getD_cons_zero, List.map_cons, List.sum_cons]
    rw [ih]
    ring

lemma lerpHack_coefficientSum (k : KernelSamples) (t : ℤ) (ht : 0 ≤ t)
    (hcount : k.sample_count = 2 * t + 1)
    (hlen : k.samples.length = k.sample_count.toNat) :
    coefficientSum (LerpHackKernelSamples k) = coefficientSum k := by
  have hmz : Int.tdiv (k.sample_count - 1) 2 + 1 = t + 1 := by
    rw [hcount, show 2 * t + 1 - 1 = 2 * t from by ring,
      Int.mul_tdiv_cancel_left _ (by norm_num)]
  have hmid0 : 0 ≤ Int.tdiv (t + 1) 2 := Int.tdiv_nonneg (by omega) (by norm_num)
  have hmidlt : Int.tdiv (t + 1) 2 < t + 1 := by
    rw [Int.tdiv_eq_ediv (by omega) (by norm_num)]
    rw [Int.ediv_lt_iff_lt_mul (by norm_num)]
    omega
  have hmidN : (Int.tdiv (t + 1) 2).toNat < (t + 1).toNat := by omega
  simp only [coefficientSum, LerpHackKernelSamples, hmz]
  rw [lerpHackGo_coeff_sum_zero _ _ _ hmidN]
  have hrange : 2 * (t + 1).toNat - 1 = k.samples.length := by omega
  rw [hrange, sum_range_getD]

/-- C1 counterexample: for BlurParameters with blur_sigma 1, blur_radius 1
and step_size 2 (positive blur_sigma, as the claim requires), the generated
kernel has an even sample count, the lerp compression drops its last sample,
and the coefficients of the compressed kernel sum to one half, not one:
the conjunction of the claim fails. -/
theorem C1_counterexample :
    ¬ (|coefficientSum (GenerateBlurInfo ⟨⟨0, 0⟩, 1, 1, 2⟩) - 1| ≤ 1e-4 ∧
       coefficientSum (LerpHackKernelSamples (GenerateBlurInfo ⟨⟨0, 0⟩, 1, 1, 2⟩)) =
         coefficientSum (GenerateBlurInfo ⟨⟨0, 0⟩, 1, 1, 2⟩) ∧
       |coefficientSum (LerpHackKernelSamples (GenerateBlurInfo ⟨⟨0, 0⟩, 1, 1, 2⟩)) - 1| ≤
         1e-4) := by
  intro ⟨_, h2, h3⟩
  have hc : blurSampleCount ⟨⟨0, 0⟩, 1, 1, 2⟩ = 2 := by decide
  have hx0 : blurSampleX ⟨⟨0, 0⟩, 1, 1, 2⟩ 0 = -1 := by decide
  have hx1 : blurSampleX ⟨⟨0, 0⟩, 1, 1, 2⟩ 1 = 1 := by decide
  have hgg : gaussianCoefficient 1 (-1) = gaussianCoefficient 1 1 := by
    unfold gaussianCoefficient
    norm_num
  set c := gaussianCoefficient 1 1 with hcdef
  have hcpos : 0 < c := gaussianCoefficient_pos 1 (by norm_num) 1
  have hraw : rawBlurSamples ⟨⟨0, 0⟩, 1, 1, 2⟩ =
      [⟨Vector2.scale ⟨0, 0⟩ ((-1 : ℤ) : ℝ), c⟩, ⟨Vector2.scale ⟨0, 0⟩ ((1 : ℤ) : ℝ), c⟩] := by
    rw [rawBlurSamples, hc]
    show List.map _ [0, 1] = _
    simp only [List.map_cons, List.map_nil, hx0, hx1, hgg]
  have hsamples : (GenerateBlurInfo ⟨⟨0, 0⟩, 1, 1, 2⟩).samples =
      [⟨Vector2.scale ⟨0, 0⟩ ((-1 : ℤ) : ℝ), c / (c + (c + 0))⟩,
       ⟨Vector2.scale ⟨0, 0⟩ ((1 : ℤ) : ℝ), c / (c + (c + 0))⟩] := by
    simp only [GenerateBlurInfo, hraw]
    simp [List.map_cons]
  have hlerpcount : Int.tdiv ((GenerateBlurInfo ⟨⟨0, 0⟩, 1, 1, 2⟩).sample_count - 1) 2 + 1 = 1 := by
    rw [generateBlurInfo_sample_count, hc]
    decide
  have htdm : (Int.tdiv 1 2).toNat = 0 := by decide
  have htd1 : ((1 : ℤ)).toNat = 1 := rfl
  have hlerp : coefficientSum (LerpHackKernelSamples (GenerateBlurInfo ⟨⟨0, 0⟩, 1, 1, 2⟩)) =
      c / (c + (c + 0)) := by
    simp only [coefficientSum, LerpHackKernelSamples, hlerpcount, htdm, htd1,
      lerpHackGo_closed_zero]
    simp [lerpOutSample, hsamples]
    rw [show List.range 1 = [0] from rfl]
    simp
  rw [hlerp] at h3
  have hchalf : c / (c + (c + 0)) = 1 / 2 := by
    field_simp
    ring
  rw [hchalf] at h3
  rw [show |(1 : ℝ) / 2 - 1| = 1 / 2 from by
    rw [abs_of_nonpos (by norm_num)]
    norm_num] at h3
  norm_num at h3

/-- C1 (amended): for every BlurParameters with positive blur_sigma,
nonnegative blur_radius and step_size one (the only step size RenderFilter
uses), the normalized kernel coefficients sum to exactly 1, the sum is
preserved by LerpHackKernelSamples, and therefore the lerp-compressed
kernel bound to the blur shader also sums to 1 within 1e-4. -/
theorem C1_kernel_sum (p : BlurParameters) (hσ : 0 < p.blur_sigma)
    (hr : 0 ≤ p.blur_radius) (hs : p.step_size = 1) :
    |coefficientSum (GenerateBlurInfo p) - 1| ≤ 1e-4 ∧
    coefficientSum (LerpHackKernelSamples (GenerateBlurInfo p)) =
      coefficientSum (GenerateBlurInfo p) ∧
    |coefficientSum (LerpHackKernelSamples (GenerateBlurInfo p)) - 1| ≤ 1e-4 := by
  obtain ⟨t, ht, hcount⟩ := blurSampleCount_step_one p hr hs
  have hn : 1 ≤ blurSampleCount p := by omega
  have hsum1 : coefficientSum (GenerateBlurInfo p) = 1 :=
    generateBlurInfo_sum_eq_one p hσ hn
  have hpres : coefficientSum (LerpHackKernelSamples (GenerateBlurInfo p)) =
      coefficientSum (GenerateBlurInfo p) := by
    refine lerpHack_coefficientSum _ t ht ?_ ?_
    · rw [generateBlurInfo_sample_count]
      exact hcount
    · rw [generateBlurInfo_samples_length, generateBlurInfo_sample_count]
  rw [hpres, hsum1]
  norm_num

/-- Witness for C1: the amended claim holds at sigma 1, radius 1, step 1. -/
theorem C1_kernel_sum_witness :
    |coefficientSum (GenerateBlurInfo ⟨⟨0, 0⟩, 1, 1, 1⟩) - 1| ≤ 1e-4 :=
  (C1_kernel_sum ⟨⟨0, 0⟩, 1, 1, 1⟩ (by norm_num) (by norm_num) rfl).1

lemma getD_range_map {α : Type} (f : ℕ → α) (d : α) (n i : ℕ) (h : i < n) :
    ((List.range n).map f).getD i d = f i := by
  rw [List.getD_eq_getElem?_getD, List.getElem?_map, List.getElem?_range h]
  rfl

/-- C3: for every kernel with sample count n at least 1, the lerp-compressed
kernel has floor((n-1)/2)+1 samples; the output at the middle index (half
the output count, rounded down) is a single input sample kept unmerged, and
every other output merges two consecutive input samples into one whose
uv_offset is the coefficient-weighted average of the pair and whose
coefficient is the sum over the pair (lerpOutSample and mergeKernelSamples spell
out exactly these cases, with the merged pairs at indices 2i, 2i+1 left of
the middle and 2i-1, 2i right of it). -/
theorem C3_lerp_structure (k : KernelSamples) (hn : 1 ≤ k.sample_count) :
    (LerpHackKernelSamples k).sample_count = (k.sample_count - 1) / 2 + 1 ∧
    (LerpHackKernelSamples k).samples.length =
      ((k.sample_count - 1) / 2 + 1).toNat ∧
    ∀ i : ℕ, i < ((k.sample_count - 1) / 2 + 1).toNat →
      (LerpHackKernelSamples k).samples.getD i default =
        lerpOutSample (fun j => k.samples.getD j default)
          ((((k.sample_count - 1) / 2 + 1) / 2).toNat) i := by
  have h1 : Int.tdiv (k.sample_count - 1) 2 = (k.sample_count - 1) / 2 :=
    Int.tdiv_eq_ediv (by omega) (by norm_num)
  have h0 : 0 ≤ (k.sample_count - 1) / 2 := Int.ediv_nonneg (by omega) (by norm_num)
  have h2 : Int.tdiv ((k.sample_count - 1) / 2 + 1) 2 =
      ((k.sample_count - 1) / 2 + 1) / 2 :=
    Int.tdiv_eq_ediv (by omega) (by norm_num)
  refine ⟨?_, ?_, ?_⟩
  · simp [LerpHackKernelSamples, h1]
  · rw [lerpHack_samples, h1]
    simp
  · intro i hi
    rw [lerpHack_samples, h1, h2, getD_range_map _ _ _ _ hi]

/-- Witness for C3 at a concrete kernel with three samples. -/
theorem C3_lerp_structure_witness :
    (LerpHackKernelSamples (⟨3, []⟩ : KernelSamples)).sample_count =
      ((3 : ℤ) - 1) / 2 + 1 :=
  (C3_lerp_structure ⟨3, []⟩ (by norm_num)).1

/-- C4: the sample count of GenerateBlurInfo is 2*radius/step + 1, reduced by two
when the radius is at least 3 (with the sampling origin shifted by one step,
the leading 1 in the offset), then clamped to the kernel capacity; sample i
sits at uv offset blur_uv_offset * (x_offset + i*step - radius), its
pre-normalization coefficient is the Gaussian density with mean 0 and
standard deviation blur_sigma at that integer offset, and the stored
coefficient is that density divided by the pre-normalization total. -/
theorem C4_generate_blur_info (p : BlurParameters) (hr : 0 ≤ p.blur_radius)
    (hs : 1 ≤ p.step_size) :
    (GenerateBlurInfo p).sample_count =
      min (2 * p.blur_radius / p.step_size + 1 -
          (if 3 ≤ p.blur_radius then 2 else 0)) kMaxKernelSize ∧
    (GenerateBlurInfo p).samples.length = (GenerateBlurInfo p).sample_count.toNat ∧
    (∀ i : ℕ, i < (GenerateBlurInfo p).sample_count.toNat →
      (rawBlurSamples p).getD i default =
        ⟨p.blur_uv_offset.scale
            (((if 3 ≤ p.blur_radius then 1 else 0) + (i : ℤ) * p.step_size -
                p.blur_radius : ℤ) : ℝ),
         gaussianCoefficient p.blur_sigma
           ((if 3 ≤ p.blur_radius then 1 else 0) + (i : ℤ) * p.step_size -
             p.blur_radius)⟩) ∧
    (∀ i : ℕ, i < (GenerateBlurInfo p).sample_count.toNat →
      (GenerateBlurInfo p).samples.getD i default =
        ⟨p.blur_uv_offset.scale
            (((if 3 ≤ p.blur_radius then 1 else 0) + (i : ℤ) * p.step_size -
                p.blur_radius : ℤ) : ℝ),
         gaussianCoefficient p.blur_sigma
             ((if 3 ≤ p.blur_radius then 1 else 0) + (i : ℤ) * p.step_size -
               p.blur_radius) /
           ((rawBlurSamples p).map KernelSample.coefficient).sum⟩) := by
  have hcount : blurSampleCount p =
      min (2 * p.blur_radius / p.step_size + 1 -
          (if 3 ≤ p.blur_radius then 2 else 0)) kMaxKernelSize := by
    simp only [blurSampleCount, kMaxKernelSize]
    rw [Int.tdiv_eq_ediv (by omega) (by omega), min_def]
    split_ifs <;> omega
  refine ⟨?_, ?_, ?_, ?_⟩
  · rw [generateBlurInfo_sample_count]
    exact hcount
  · rw [generateBlurInfo_samples_length, generateBlurInfo_sample_count]
  · intro i hi
    rw [generateBlurInfo_sample_count] at hi
    have hi2 : i < (blurSampleCount p).toNat := hi
    simp only [rawBlurSamples]
    rw [getD_range_map _ _ _ _ hi2]
    simp [blurSampleX, blurXOffset]
  · intro i hi
    rw [generateBlurInfo_sample_count] at hi
    have hi2 : i < (blurSampleCount p).toNat := hi
    have hopt : (rawBlurSamples p)[i]? = some
        (KernelSample.mk (p.blur_uv_offset.scale ((blurSampleX p i : ℤ) : ℝ))
          (gaussianCoefficient p.blur_sigma (blurSampleX p i))) := by
      simp only [rawBlurSamples, List.getElem?_map, List.getElem?_range hi2]
      rfl
    simp only [GenerateBlurInfo]
    rw [List.getD_eq_getElem?_getD, List.getElem?_map, hopt]
    simp [blurSampleX, blurXOffset]

/-- Witness for C4 at radius 4, step 1. -/
theorem C4_generate_blur_info_witness :
    (GenerateBlurInfo ⟨⟨0, 0⟩, 1, 4, 1⟩).sample_count =
      min (2 * (4 : ℤ) / 1 + 1 - (if (3 : ℤ) ≤ 4 then 2 else 0)) kMaxKernelSize :=
  (C4_generate_blur_info ⟨⟨0, 0⟩, 1, 4, 1⟩ (by norm_num) (by norm_num)).1

lemma calculateBlurRadius_nonneg (s : ℝ) : 0 ≤ CalculateBlurRadius s := by
  unfold CalculateBlurRadius
  split_ifs with h
  · exact mul_nonneg (by linarith) (by norm_num)
  · exact le_refl 0

lemma extractScale_identity : ExtractScale Matrix.identity.Basis = ⟨1, 1⟩ := by
  simp only [ExtractScale, Matrix.Basis, Matrix.identity, Matrix.applyVector2,
    Vector2.GetLength]
  norm_num

lemma scaleSigma_ten : ScaleSigma 10 = 9.6634 := by
  simp only [ScaleSigma, kMaxSigma]
  rw [min_eq_left (by norm_num)]
  norm_num

/-- Evaluation of CalculateBlurInfo for an identity entity transform,
identity effect transform and equal per-axis sigma inside the clamp range. -/
lemma calculateBlurInfo_identity (s : ℝ) (hs0 : 0 ≤ ScaleSigma s)
    (hs500 : ScaleSigma s ≤ 500) :
    CalculateBlurInfo cEntity Matrix.identity ⟨s, s⟩ =
      ⟨⟨1, 1⟩, ⟨ScaleSigma s, ScaleSigma s⟩,
       ⟨CalculateBlurRadius (ScaleSigma s), CalculateBlurRadius (ScaleSigma s)⟩,
       ⟨((⌈CalculateBlurRadius (ScaleSigma s)⌉ : ℤ) : ℝ),
        ((⌈CalculateBlurRadius (ScaleSigma s)⌉ : ℤ) : ℝ)⟩,
       ⟨((⌈CalculateBlurRadius (ScaleSigma s)⌉ : ℤ) : ℝ),
        ((⌈CalculateBlurRadius (ScaleSigma s)⌉ : ℤ) : ℝ)⟩⟩ := by
  have hrad : 0 ≤ CalculateBlurRadius (ScaleSigma s) := calculateBlurRadius_nonneg _
  have hceil : (0 : ℝ) ≤ ((⌈CalculateBlurRadius (ScaleSigma s)⌉ : ℤ) : ℝ) := by
    exact_mod_cast Int.ceil_nonneg hrad
  have hcs : clampScalar (ScaleSigma s) 0 kMaxSigma = ScaleSigma s := by
    unfold clampScalar kMaxSigma
    rw [if_neg (by linarith), if_neg (by linarith)]
  have happly : ((Matrix.identity.Basis.mul
      (Matrix.MakeScale ⟨1, 1⟩)).applyVector2
        ⟨ScaleSigma s, ScaleSigma s⟩).Abs = ⟨ScaleSigma s, ScaleSigma s⟩ := by
    simp only [Matrix.Basis, Matrix.identity, Matrix.mul, Matrix.MakeScale,
      Matrix.applyVector2, Vector2.Abs]
    norm_num [abs_of_nonneg hs0]
  simp only [CalculateBlurInfo, cEntity, extractScale_identity, happly, Clamp, hcs]
  simp only [Matrix.MakeScale, Matrix.applyVector2, Vector2.Abs]
  norm_num [abs_of_nonneg hceil]

/-- C8: GetFilterCoverage returns no value exactly when the input list is
empty or the first input reports no coverage; otherwise it expands the
coverage of the first input per axis by the local padding; with identity entity
and effect transforms and sigma 10 on both axes, the local padding is the
ceiling of the blur radius of ScaleSigma 10 on both axes. -/
theorem C8_filter_coverage (entity : EntityM) (effect_transform : Matrix)
    (sigma : Vector2) :
    (∀ inputs : List FilterInputM,
        GetFilterCoverage inputs entity effect_transform sigma = none ↔
          inputs = [] ∨ ∃ input rest, inputs = input :: rest ∧
            input.getCoverage entity = none) ∧
    (∀ (input : FilterInputM) (rest : List FilterInputM) (cov : Rect),
        input.getCoverage entity = some cov →
        GetFilterCoverage (input :: rest) entity effect_transform sigma =
          some (cov.Expand
            ⟨(CalculateBlurInfo entity effect_transform sigma).local_padding.x,
             (CalculateBlurInfo entity effect_transform sigma).local_padding.y⟩)) ∧
    (CalculateBlurInfo cEntity Matrix.identity ⟨10, 10⟩).local_padding =
      ⟨((⌈CalculateBlurRadius (ScaleSigma 10)⌉ : ℤ) : ℝ),
       ((⌈CalculateBlurRadius (ScaleSigma 10)⌉ : ℤ) : ℝ)⟩ := by
  refine ⟨?_, ?_, ?_⟩
  · intro inputs
    match inputs with
    | [] => simp [GetFilterCoverage]
    | input :: rest =>
      match hcov : input.getCoverage entity with
      | none => simp [GetFilterCoverage, hcov]
      | some cov => simp [GetFilterCoverage, hcov]
  · intro input rest cov hcov
    simp [GetFilterCoverage, hcov]
  · rw [calculateBlurInfo_identity 10 (by rw [scaleSigma_ten]; norm_num)
      (by rw [scaleSigma_ten]; norm_num)]

/-- Witness for C8: the expansion formula applied to a concrete input. -/
theorem C8_filter_coverage_witness :
    GetFilterCoverage [cInput] cEntity Matrix.identity ⟨10, 10⟩ =
      some ((⟨0, 0, 4, 4⟩ : Rect).Expand
        ⟨(CalculateBlurInfo cEntity Matrix.identity ⟨10, 10⟩).local_padding.x,
         (CalculateBlurInfo cEntity Matrix.identity ⟨10, 10⟩).local_padding.y⟩) :=
  (C8_filter_coverage cEntity Matrix.identity ⟨10, 10⟩).2.1 cInput [] ⟨0, 0, 4, 4⟩ rfl

lemma scaleSigma_zero : ScaleSigma 0 = 0 := by
  simp only [ScaleSigma, kMaxSigma]
  rw [min_eq_left (by norm_num)]
  ring

/-- C6: when both scaled sigmas are below the near-zero epsilon,
RenderFilter returns the input snapshot wrapped as an entity and
reprojected by the transform of the entity, and no command buffer is created,
no render target is allocated and no blur draw is recorded. -/
theorem C6_passthrough (inputs : List FilterInputM) (env : RenderEnv)
    (entity : EntityM) (effect_transform : Matrix) (sigma : Vector2)
    (style : BlurStyle) (input0 : FilterInputM) (rest : List FilterInputM)
    (hinputs : inputs = input0 :: rest)
    (snap : SnapshotM) (hsnap : env.input_snapshot = some snap)
    (hx : (CalculateBlurInfo entity effect_transform sigma).scaled_sigma.x <
      kEhCloseEnough)
    (hy : (CalculateBlurInfo entity effect_transform sigma).scaled_sigma.y <
      kEhCloseEnough) :
    RenderFilter inputs env entity effect_transform sigma style =
      (some ⟨entity.transform.mul
          ((Matrix.MakeScale
              ⟨1 / (CalculateBlurInfo entity effect_transform sigma).source_space_scalar.x,
               1 / (CalculateBlurInfo entity effect_transform sigma).source_space_scalar.y⟩).mul
            snap.transform),
        entity.blend_mode, .fromSnapshot snap⟩,
       Trace.empty) ∧
    Trace.empty.command_buffers = 0 ∧ Trace.empty.targets_allocated = 0 ∧
    Trace.empty.blur_draws = [] := by
  subst hinputs
  refine ⟨?_, rfl, rfl, rfl⟩
  simp only [RenderFilter, hsnap]
  rw [if_pos ⟨hx, hy⟩]
  rfl

/-- Witness for C6: with sigma zero the filter passes the snapshot through
even in an environment where every device operation would fail. -/
theorem C6_passthrough_witness :
    RenderFilter [cInput] cEnvFail cEntity Matrix.identity ⟨0, 0⟩ .kNormal =
      (some ⟨cEntity.transform.mul
          ((Matrix.MakeScale
              ⟨1 / (CalculateBlurInfo cEntity Matrix.identity ⟨0, 0⟩).source_space_scalar.x,
               1 / (CalculateBlurInfo cEntity Matrix.identity ⟨0, 0⟩).source_space_scalar.y⟩).mul
            cSnapshot.transform),
        cEntity.blend_mode, .fromSnapshot cSnapshot⟩,
       Trace.empty) := by
  have hval : (CalculateBlurInfo cEntity Matrix.identity ⟨0, 0⟩).scaled_sigma =
      ⟨0, 0⟩ := by
    rw [calculateBlurInfo_identity 0 (by rw [scaleSigma_zero])
      (by rw [scaleSigma_zero]; norm_num), scaleSigma_zero]
  exact (C6_passthrough [cInput] cEnvFail cEntity Matrix.identity ⟨0, 0⟩ .kNormal
    cInput [] rfl cSnapshot rfl
    (by rw [hval]; norm_num [kEhCloseEnough])
    (by rw [hval]; norm_num [kEhCloseEnough])).1

lemma makeBlurSubpass_fst_none_iff (ok : Bool) (input : RenderTargetM)
    (bp : BlurParameters) (dest : Option RenderTargetM) (tr : Trace) :
    (MakeBlurSubpass ok input bp dest tr).1 = none ↔
      (¬ bp.blur_sigma < kEhCloseEnough ∧ ok = false) := by
  unfold MakeBlurSubpass
  cases ok <;> cases dest <;> split_ifs with h <;> simp_all

/-- C7: RenderFilter returns no value exactly when the input list is empty,
the input snapshot is unavailable, or the non-pass-through pipeline is taken
and command-buffer creation fails, the downsample draw fails, a blur pass
that actually runs (its per-pass sigma not below the epsilon) fails, or
submission fails; in every other case an output entity is returned.  The
embedding is a total function, so no exception crosses the boundary. -/
theorem C7_render_failure (inputs : List FilterInputM) (env : RenderEnv)
    (entity : EntityM) (effect_transform : Matrix) (sigma : Vector2)
    (style : BlurStyle) :
    (RenderFilter inputs env entity effect_transform sigma style).1 = none ↔
      inputs = [] ∨ env.input_snapshot = none ∨
      (∃ snap, env.input_snapshot = some snap ∧
        ¬ renderEarlyOut entity effect_transform sigma ∧
        (env.command_buffer_ok = false ∨
         env.downsample_draw_ok = false ∨
         (¬ blurSigmaY entity effect_transform sigma snap < kEhCloseEnough ∧
            env.blur_pass1_draw_ok = false) ∨
         (¬ blurSigmaX entity effect_transform sigma snap < kEhCloseEnough ∧
            env.blur_pass2_draw_ok = false) ∨
         env.submit_ok = false)) := by
  match inputs with
  | [] => simp [RenderFilter]
  | input0 :: rest =>
    match hsnap : env.input_snapshot with
    | none => simp [RenderFilter, hsnap]
    | some snap =>
      simp only [RenderFilter, hsnap]
      simp only [renderEarlyOut, blurSigmaY, blurSigmaX, downsampleArgsOf]
      by_cases heo :
          (CalculateBlurInfo entity effect_transform sigma).scaled_sigma.x <
            kEhCloseEnough ∧
          (CalculateBlurInfo entity effect_transform sigma).scaled_sigma.y <
            kEhCloseEnough
      · rw [if_pos heo]
        simp [heo]
      · rw [if_neg heo]
        by_cases h2 :
            (CalculateBlurInfo entity effect_transform sigma).scaled_sigma.y *
              (CalculateDownsamplePassArgs
                (CalculateBlurInfo entity effect_transform sigma).scaled_sigma
                (CalculateBlurInfo entity effect_transform sigma).padding
                snap.texture.size).effective_scalar.y < kEhCloseEnough <;>
        by_cases h3 :
            (CalculateBlurInfo entity effect_transform sigma).scaled_sigma.x *
              (CalculateDownsamplePassArgs
                (CalculateBlurInfo entity effect_transform sigma).scaled_sigma
                (CalculateBlurInfo entity effect_transform sigma).padding
                snap.texture.size).effective_scalar.x < kEhCloseEnough <;>
        cases hcb : env.command_buffer_ok <;>
        cases hds : env.downsample_draw_ok <;>
        cases hb1 : env.blur_pass1_draw_ok <;>
        cases hb2 : env.blur_pass2_draw_ok <;>
        cases hsub : env.submit_ok <;>
        simp [MakeDownsampleSubpass, MakeBlurSubpass, Trace.alloc,
          Trace.recordBlurDraw, heo, h2, h3] <;>
        first
          | done
          | exact not_lt.mp h2
          | exact not_lt.mp h3
          | exact Or.inl (not_lt.mp h2)
          | exact Or.inr (not_lt.mp h3)

set_option maxHeartbeats 2000000 in
/-- C10: whenever the three pass outputs of one RenderFilter invocation are
all recorded, their render-target sizes coincide (including the cases where
a blur pass early-outs for a near-zero per-axis sigma), and the second blur
pass is handed the render target of the first blur pass as its destination
exactly when the first blur pass produced a texture distinct from the
downsample output. -/
theorem C10_ping_pong (inputs : List FilterInputM) (env : RenderEnv)
    (entity : EntityM) (effect_transform : Matrix) (sigma : Vector2)
    (style : BlurStyle) (t1 t2 t3 : RenderTargetM)
    (h1 : (RenderFilter inputs env entity effect_transform sigma style).2.pass1 =
      some t1)
    (h2 : (RenderFilter inputs env entity effect_transform sigma style).2.pass2 =
      some t2)
    (h3 : (RenderFilter inputs env entity effect_transform sigma style).2.pass3 =
      some t3) :
    (t1.texture.size = t2.texture.size ∧ t2.texture.size = t3.texture.size) ∧
    ∀ d, (RenderFilter inputs env entity effect_transform sigma
        style).2.pass3_destination = some d →
      (d = some t1 ↔ t2.texture ≠ t1.texture) := by
  rcases inputs with _ | ⟨input0, rest⟩
  · simp [RenderFilter, Trace.empty] at h1
  · cases hsnap : env.input_snapshot with
    | none => simp [RenderFilter, hsnap, Trace.empty] at h1
    | some snap =>
      by_cases heo :
          (CalculateBlurInfo entity effect_transform sigma).scaled_sigma.x <
            kEhCloseEnough ∧
          (CalculateBlurInfo entity effect_transform sigma).scaled_sigma.y <
            kEhCloseEnough
      · simp [RenderFilter, hsnap, heo, Trace.empty] at h1
      · by_cases hs2 :
            (CalculateBlurInfo entity effect_transform sigma).scaled_sigma.y *
              (CalculateDownsamplePassArgs
                (CalculateBlurInfo entity effect_transform sigma).scaled_sigma
                (CalculateBlurInfo entity effect_transform sigma).padding
                snap.texture.size).effective_scalar.y < kEhCloseEnough <;>
        by_cases hs3 :
            (CalculateBlurInfo entity effect_transform sigma).scaled_sigma.x *
              (CalculateDownsamplePassArgs
                (CalculateBlurInfo entity effect_transform sigma).scaled_sigma
                (CalculateBlurInfo entity effect_transform sigma).padding
                snap.texture.size).effective_scalar.x < kEhCloseEnough <;>
        cases hcb : env.command_buffer_ok <;>
        cases hds : env.downsample_draw_ok <;>
        cases hb1 : env.blur_pass1_draw_ok <;>
        cases hb2 : env.blur_pass2_draw_ok <;>
        cases hsub : env.submit_ok <;>
        (simp [RenderFilter, hsnap, MakeDownsampleSubpass, MakeBlurSubpass,
          Trace.alloc, Trace.recordBlurDraw, Trace.empty, heo, hs2, hs3, hcb,
          hds, hb1, hb2, hsub] at h1 h2 h3 ⊢) <;>
        first
          | done
          | (cases h1
             cases h2
             cases h3
             simp)

lemma cScaleSigma_two : ScaleSigma 2 = 1.9864272 := by
  simp only [ScaleSigma, kMaxSigma]
  rw [min_eq_left (by norm_num)]
  norm_num

lemma cRadius_two : CalculateBlurRadius 1.9864272 = 1.4864272 * 1.73205080757 := by
  rw [CalculateBlurRadius, if_pos (by norm_num)]
  norm_num

lemma cCeil_two : (⌈(1.4864272 * 1.73205080757 : ℝ)⌉ : ℤ) = 3 := by
  rw [Int.ceil_eq_iff]
  constructor <;> norm_num

lemma cBlurInfo_two : CalculateBlurInfo cEntity Matrix.identity ⟨2, 2⟩ =
    ⟨⟨1, 1⟩, ⟨1.9864272, 1.9864272⟩,
     ⟨1.4864272 * 1.73205080757, 1.4864272 * 1.73205080757⟩,
     ⟨3, 3⟩, ⟨3, 3⟩⟩ := by
  rw [calculateBlurInfo_identity 2 (by rw [cScaleSigma_two]; norm_num)
    (by rw [cScaleSigma_two]; norm_num)]
  rw [cScaleSigma_two, cRadius_two, cCeil_two]
  norm_num

lemma cRound_ten : round (10 : ℝ) = 10 := by
  rw [round_eq]
  norm_num [Int.floor_eq_iff]

lemma cScale_small : CalculateScale 1.9864272 = 1 := by
  rw [CalculateScale, if_pos (by norm_num)]
  norm_num

lemma cArgs_two : CalculateDownsamplePassArgs ⟨1.9864272, 1.9864272⟩ ⟨3, 3⟩ ⟨4, 4⟩ =
    ⟨⟨10, 10⟩, ⟨1, 1⟩⟩ := by
  simp only [CalculateDownsamplePassArgs, Rect.MakeSize, Rect.Expand, Rect.GetSize,
    cScale_small]
  norm_num [cRound_ten]

/-- Full evaluation of one successful RenderFilter run: 4 by 4 snapshot,
identity transforms, sigma 2 on both axes, all device operations succeed. -/
lemma cRun : RenderFilter [cInput] cEnv cEntity Matrix.identity ⟨2, 2⟩ .kNormal =
    (some ⟨⟨1, 0, 0, 1, -3, -3⟩, 0,
        .fromSnapshot ⟨⟨0, ⟨10, 10⟩⟩, ⟨1, 0, 0, 1, -3, -3⟩, 1⟩⟩,
     ⟨2, 1, 2, [⟨0, 1 / 10⟩, ⟨1 / 10, 0⟩],
      some ⟨⟨0, ⟨10, 10⟩⟩⟩, some ⟨⟨1, ⟨10, 10⟩⟩⟩, some ⟨⟨0, ⟨10, 10⟩⟩⟩,
      some (some ⟨⟨0, ⟨10, 10⟩⟩⟩)⟩) := by
  have hlt : ¬ ((1.9864272 : ℝ) < kEhCloseEnough) := by norm_num [kEhCloseEnough]
  have hlt1 : ¬ ((1.9864272 : ℝ) * 1 < kEhCloseEnough) := by norm_num [kEhCloseEnough]
  simp only [RenderFilter, cEnv, cInput, cSnapshot, cTexture, cBlurInfo_two,
    cArgs_two, MakeDownsampleSubpass, MakeBlurSubpass, Trace.alloc,
    Trace.recordBlurDraw, Trace.empty, ApplyBlurStyle, EntityM.FromSnapshot,
    hlt, hlt1, mul_one]
  simp [cEntity, Matrix.mul, Matrix.MakeScale, Matrix.MakeTranslation,
    Matrix.identity, hlt, hlt1]

/-- C9 counterexample: in a concrete successful run the uv offset of the
first recorded blur draw lies along the y axis (x component zero, y component
nonzero) and the second along the x axis; the first blur pass is vertical,
not horizontal as the claim states. -/
theorem C9_counterexample :
    (RenderFilter [cInput] cEnv cEntity Matrix.identity ⟨2, 2⟩
        .kNormal).2.blur_draws = [⟨0, 1 / 10⟩, ⟨1 / 10, 0⟩] ∧
    ((1 : ℝ) / 10 ≠ 0) := by
  rw [cRun]
  norm_num

/-- C9 (amended): the two 1D blur passes run vertical first, then
horizontal: whenever the pipeline reaches the blur passes and the first one
actually runs, the recorded blur draws are first a uv offset along the
y axis (0, 1/height) and then one along the x axis (1/width, 0) of the
downsample target; the pipeline order is snapshot, downsample with halo,
vertical blur, horizontal blur, style composition. -/
theorem C9_pass_order (inputs : List FilterInputM) (env : RenderEnv)
    (entity : EntityM) (effect_transform : Matrix) (sigma : Vector2)
    (style : BlurStyle) (input0 : FilterInputM) (rest : List FilterInputM)
    (hinputs : inputs = input0 :: rest)
    (snap : SnapshotM) (hsnap : env.input_snapshot = some snap)
    (heo : ¬ renderEarlyOut entity effect_transform sigma)
    (hcb : env.command_buffer_ok = true)
    (hds : env.downsample_draw_ok = true)
    (hrun1 : ¬ blurSigmaY entity effect_transform sigma snap < kEhCloseEnough)
    (hb1 : env.blur_pass1_draw_ok = true)
    (hrun2 : ¬ blurSigmaX entity effect_transform sigma snap < kEhCloseEnough) :
    (RenderFilter inputs env entity effect_transform sigma style).2.blur_draws =
      [⟨0, 1 / ((downsampleArgsOf entity effect_transform sigma
          snap).subpass_size.height : ℝ)⟩,
       ⟨1 / ((downsampleArgsOf entity effect_transform sigma
          snap).subpass_size.width : ℝ), 0⟩] := by
  subst hinputs
  simp only [renderEarlyOut] at heo
  simp only [blurSigmaY, blurSigmaX, downsampleArgsOf] at hrun1 hrun2 ⊢
  cases hb2 : env.blur_pass2_draw_ok <;>
  cases hsub : env.submit_ok <;>
  simp [RenderFilter, hsnap, heo, hcb, hds, hb1, hb2, hsub, hrun1, hrun2,
    MakeDownsampleSubpass, MakeBlurSubpass, Trace.alloc, Trace.recordBlurDraw,
    Trace.empty]

/-- Witness for the amended C9 at the concrete successful run. -/
theorem C9_pass_order_witness :
    (RenderFilter [cInput] cEnv cEntity Matrix.identity ⟨2, 2⟩
        .kNormal).2.blur_draws =
      [⟨0, 1 / ((downsampleArgsOf cEntity Matrix.identity ⟨2, 2⟩
          cSnapshot).subpass_size.height : ℝ)⟩,
       ⟨1 / ((downsampleArgsOf cEntity Matrix.identity ⟨2, 2⟩
          cSnapshot).subpass_size.width : ℝ), 0⟩] :=
  C9_pass_order [cInput] cEnv cEntity Matrix.identity ⟨2, 2⟩ .kNormal cInput []
    rfl cSnapshot rfl
    (by simp only [renderEarlyOut, cBlurInfo_two]; norm_num [kEhCloseEnough])
    rfl rfl
    (by simp only [blurSigmaY, downsampleArgsOf, cBlurInfo_two, cSnapshot,
          cTexture, cArgs_two]
        norm_num [kEhCloseEnough])
    rfl
    (by simp only [blurSigmaX, downsampleArgsOf, cBlurInfo_two, cSnapshot,
          cTexture, cArgs_two]
        norm_num [kEhCloseEnough])

/-- Witness for C10 at the concrete successful run: all three pass targets
are recorded with equal sizes and the destination of the second blur pass is the
downsample target. -/
theorem C10_ping_pong_witness :
    (((⟨⟨0, ⟨10, 10⟩⟩⟩ : RenderTargetM).texture.size =
        (⟨⟨1, ⟨10, 10⟩⟩⟩ : RenderTargetM).texture.size ∧
      (⟨⟨1, ⟨10, 10⟩⟩⟩ : RenderTargetM).texture.size =
        (⟨⟨0, ⟨10, 10⟩⟩⟩ : RenderTargetM).texture.size) ∧
     ∀ d, (RenderFilter [cInput] cEnv cEntity Matrix.identity ⟨2, 2⟩
         .kNormal).2.pass3_destination = some d →
       (d = some ⟨⟨0, ⟨10, 10⟩⟩⟩ ↔
         (⟨⟨1, ⟨10, 10⟩⟩⟩ : RenderTargetM).texture ≠
           (⟨⟨0, ⟨10, 10⟩⟩⟩ : RenderTargetM).texture)) :=
  C10_ping_pong [cInput] cEnv cEntity Matrix.identity ⟨2, 2⟩ .kNormal
    ⟨⟨0, ⟨10, 10⟩⟩⟩ ⟨⟨1, ⟨10, 10⟩⟩⟩ ⟨⟨0, ⟨10, 10⟩⟩⟩
    (by rw [cRun]) (by rw [cRun]) (by rw [cRun])

end

end Impeller
